import Mathlib

set_option maxRecDepth 8192

/-!
Verification of the cli-crypto-wallet repository: a shallow embedding of its
services (crypto vault, account store, network registry, transaction pipeline)
together with theorems settling the specification claims.

Conventions of the embedding:
- Rust byte slices are `List Nat` with every element below 256.
- Rust `String` values that carry arbitrary user text are modelled as lists of
  unicode scalar values (`List Nat` satisfying `IsScalar`); strings that the
  code itself builds (hex strings, file names, display lines) are Lean `String`.
- The AES-256-GCM primitive lives in the external aes_gcm crate, so it is
  modelled as a parameter (`AeadCipher`); every service function that calls it
  takes the cipher as an argument.
- Filesystem state is passed explicitly (association lists and `Option` valued
  file maps); a Rust process abort (`expect`, `unwrap`) is a dedicated
  result constructor, distinct from recoverable `Err` results.
-/

/-! ## Hex encoding and decoding (the hex crate as used by the services) -/

/-- Lower-case hex digit for a value below 16, as produced by hex encode. -/
def hexDigitChar (d : Nat) : Char :=
  Char.ofNat (if d < 10 then 48 + d else 87 + d)

/-- Value of a hex digit character; accepts 0-9, a-f and A-F like hex decode. -/
def decodeHexDigitChar (c : Char) : Option Nat :=
  let n := c.toNat
  if 48 ≤ n ∧ n ≤ 57 then some (n - 48)
  else if 65 ≤ n ∧ n ≤ 70 then some (n - 55)
  else if 97 ≤ n ∧ n ≤ 102 then some (n - 87)
  else none

/-- Character list of the hex encoding of a byte list, two digits per byte. -/
def hexChars : List Nat → List Char
  | [] => []
  | b :: t => hexDigitChar (b / 16) :: hexDigitChar (b % 16) :: hexChars t

/-- Rust hex encode: lower-case hex string of a byte list. -/
def hexEncode (bs : List Nat) : String :=
  String.mk (hexChars bs)

/-- Rust hex decode on the character list: pairs of digits, failing on an odd
length or a non-hex character. -/
def hexDecodeChars : List Char → Option (List Nat)
  | [] => some []
  | [_] => none
  | c1 :: c2 :: rest =>
    match decodeHexDigitChar c1, decodeHexDigitChar c2, hexDecodeChars rest with
    | some d1, some d2, some ds => some ((d1 * 16 + d2) :: ds)
    | _, _, _ => none

/-- Rust hex decode on a string. -/
def hexDecode (s : String) : Option (List Nat) :=
  hexDecodeChars s.toList

/-! ## UTF-8 (Rust str bytes and String from_utf8)

A Rust `String` is a sequence of unicode scalar values; `as_ref` yields its
UTF-8 bytes and `String::from_utf8` re-validates them. -/

/-- A unicode scalar value: below 0x110000 and not a surrogate. -/
def IsScalar (c : Nat) : Prop :=
  c < 0x110000 ∧ ¬(0xD800 ≤ c ∧ c < 0xE000)

instance (c : Nat) : Decidable (IsScalar c) := by
  unfold IsScalar
  infer_instance

/-- UTF-8 byte sequence of one scalar value (1 to 4 bytes by range). -/
def utf8EncodeChar (c : Nat) : List Nat :=
  if c < 0x80 then [c]
  else if c < 0x800 then [0xC0 + c / 64, 0x80 + c % 64]
  else if c < 0x10000 then
    [0xE0 + c / 4096, 0x80 + (c / 64) % 64, 0x80 + c % 64]
  else
    [0xF0 + c / 262144, 0x80 + (c / 4096) % 64, 0x80 + (c / 64) % 64, 0x80 + c % 64]

/-- UTF-8 bytes of a scalar-value sequence (Rust str as bytes). -/
def utf8Encode (cs : List Nat) : List Nat :=
  (cs.map utf8EncodeChar).flatten

/-- One step of UTF-8 validation: decode the leading scalar value and return
it with the remaining bytes, rejecting an empty input, a truncated sequence,
bad continuation bytes, overlong forms, surrogates and out-of-range values,
as Rust String from_utf8 does. -/
def utf8DecodeStep : List Nat → Option (Nat × List Nat)
  | [] => none
  | b :: bs =>
    if b < 0x80 then some (b, bs)
    else if b < 0xE0 then
      match bs with
      | b2 :: bs2 =>
        if 0xC2 ≤ b ∧ 0x80 ≤ b2 ∧ b2 < 0xC0 then
          some ((b - 0xC0) * 64 + (b2 - 0x80), bs2)
        else none
      | [] => none
    else if b < 0xF0 then
      match bs with
      | b2 :: b3 :: bs3 =>
        let v := (b - 0xE0) * 4096 + (b2 - 0x80) * 64 + (b3 - 0x80)
        if (0x80 ≤ b2 ∧ b2 < 0xC0) ∧ (0x80 ≤ b3 ∧ b3 < 0xC0) ∧
            0x800 ≤ v ∧ ¬(0xD800 ≤ v ∧ v < 0xE000) then
          some (v, bs3)
        else none
      | _ => none
    else
      match bs with
      | b2 :: b3 :: b4 :: bs4 =>
        let v := (b - 0xF0) * 262144 + (b2 - 0x80) * 4096 + (b3 - 0x80) * 64 +
          (b4 - 0x80)
        if b < 0xF5 ∧ (0x80 ≤ b2 ∧ b2 < 0xC0) ∧ (0x80 ≤ b3 ∧ b3 < 0xC0) ∧
            (0x80 ≤ b4 ∧ b4 < 0xC0) ∧ 0x10000 ≤ v ∧ v < 0x110000 then
          some (v, bs4)
        else none
      | _ => none

theorem utf8DecodeStep_length {l : List Nat} {v : Nat} {rest : List Nat}
    (h : utf8DecodeStep l = some (v, rest)) : rest.length < l.length := by
  match l with
  | [] => simp [utf8DecodeStep] at h
  | b :: bs =>
    rw [utf8DecodeStep.eq_def] at h
    dsimp only at h
    split_ifs at h with h1 h2 h3
    · cases h
      simp
    · match bs with
      | [] => simp at h
      | b2 :: bs2 =>
        simp only at h
        split_ifs at h
        cases h
        simp
        omega
    · match bs with
      | [] => simp at h
      | [b2] => simp at h
      | b2 :: b3 :: bs3 =>
        simp only at h
        split_ifs at h
        cases h
        simp
        omega
    · match bs with
      | [] => simp at h
      | [b2] => simp at h
      | [b2, b3] => simp at h
      | b2 :: b3 :: b4 :: bs4 =>
        simp only at h
        split_ifs at h
        cases h
        simp
        omega

/-- UTF-8 validation and decoding of a byte list back to its scalar values,
iterating utf8DecodeStep until the input is exhausted. The fuel argument only
bounds the iteration count for structural recursion; every step consumes at
least one byte, so fuel equal to the input length is always enough. -/
def utf8DecodeLoop : Nat → List Nat → Option (List Nat)
  | _, [] => some []
  | 0, _ :: _ => none
  | fuel + 1, b :: bs =>
    match utf8DecodeStep (b :: bs) with
    | none => none
    | some (v, rest) => (utf8DecodeLoop fuel rest).map (fun t => v :: t)

/-- UTF-8 validation and decoding of a whole byte list (Rust String
from_utf8). -/
def utf8DecodeBytes (l : List Nat) : Option (List Nat) :=
  utf8DecodeLoop l.length l

/-! ## Big-endian byte views of unsigned integers -/

/-- Big-endian byte list of length k for a number (low bytes of n, U256 and
H160 style fixed-width views). -/
def natToBeBytes : Nat → Nat → List Nat
  | 0, _ => []
  | k + 1, n => natToBeBytes k (n / 256) ++ [n % 256]

/-- Number read from a big-endian byte list (U256 from_big_endian). -/
def beBytesToNat (bs : List Nat) : Nat :=
  bs.foldl (fun acc b => acc * 256 + b) 0

/-! ## CryptoService (src/services/crypto.rs)

The AES-256-GCM cipher is the external aes_gcm crate; it is abstracted as an
`AeadCipher` whose encryption and decryption may fail (`none` models a failed
integrity check on decryption). The Rust code panics via `expect` on hex
decoding failure, on encryption failure and on failed decryption; those paths
are the `processAbort` results below. -/

/-- Abstract authenticated cipher: key, nonce and message bytes in, bytes out. -/
structure AeadCipher where
  enc : List Nat → List Nat → List Nat → Option (List Nat)
  dec : List Nat → List Nat → List Nat → Option (List Nat)

/-- Outcome of CryptoService encrypt: the hex ciphertext and the nonce, or a
process abort (the Rust code calls expect on the cipher result). -/
inductive EncryptResult where
  | ok (ciphertextHex : String) (nonce : List Nat)
  | processAbort (msg : String)
deriving DecidableEq, Repr

/-- Outcome of CryptoService decrypt: recovered scalar values, a recoverable
error (only the invalid-UTF-8 path in the source), or a process abort. -/
inductive DecryptResult where
  | ok (plaintext : List Nat)
  | err (msg : String)
  | processAbort (msg : String)
deriving DecidableEq, Repr

namespace CryptoService

/-- Embedding of CryptoService encrypt. The Rust function generates a fresh
random nonce internally; the nonce argument here stands for that generated
value, making the randomness explicit. -/
def encrypt (cipher : AeadCipher) (data : List Nat) (key nonce : List Nat) :
    EncryptResult :=
  match cipher.enc key nonce (utf8Encode data) with
  | none => EncryptResult.processAbort ("encryption failure!")
  | some ciphertext => EncryptResult.ok (hexEncode ciphertext) nonce

/-- Embedding of CryptoService decrypt: hex-decode the ciphertext (expect:
abort on failure), decrypt (expect: abort on failure, which is how a failed
integrity tag surfaces), then re-validate UTF-8 (recoverable error). -/
def decrypt (cipher : AeadCipher) (ciphertext : String) (key nonce : List Nat) :
    DecryptResult :=
  match hexDecode ciphertext with
  | none => DecryptResult.processAbort ("decoding failure!")
  | some ctBytes =>
    match cipher.dec key nonce ctBytes with
    | none => DecryptResult.processAbort ("decryption failure!")
    | some ptBytes =>
      match utf8DecodeBytes ptBytes with
      | none => DecryptResult.err ("invalid utf-8 sequence")
      | some plaintext => DecryptResult.ok plaintext

end CryptoService

/-! ## Storage path constants (src/config.rs) -/

/-- Storage directory constant from config.rs. -/
def STORAGE_DIR : String := "storage"

/-- Session state file constant from config.rs. -/
def STATE_FILE : String := "storage/state.json"

/-- Network registry file constant from config.rs. -/
def STORAGE_FILE : String := "storage/networks.json"

/-! ## AccountService (src/services/account.rs) -/

/-- One persisted account record (one JSON file per account); every field is
stored as a string, the byte-valued ones hex-encoded. -/
structure AccountRecord where
  account_name : String
  encrypted_password : String
  password_nonce : String
  encrypted_seed_phrase : String
  seed_nonce : String
  encryption_key : String
deriving DecidableEq, Repr

/-- Filesystem state the account service touches: the per-account record files
(keyed by account name) and the session file content. -/
structure AccountState where
  accounts : List (String × AccountRecord)
  session : Option String
deriving DecidableEq, Repr

/-- Outcome of login, tagging which message path the Rust function took. -/
inductive LoginResult where
  | success
  | readFailure
  | decryptFailure
  | authFailure
  | processAbort (msg : String)
deriving DecidableEq, Repr

namespace AccountService

/-- Decryption part of login: hex-decode the stored encryption key and the
password nonce (expect: abort on failure; GenericArray from_slice panics on a
length mismatch), then run CryptoService decrypt on the stored password. -/
def loginDecryptPassword (cipher : AeadCipher) (rec : AccountRecord) :
    DecryptResult :=
  match hexDecode rec.encryption_key with
  | none => DecryptResult.processAbort ("Failed to decode encryption key")
  | some keyBytes =>
    if keyBytes.length ≠ 32 then
      DecryptResult.processAbort ("key slice length mismatch")
    else
      match hexDecode rec.password_nonce with
      | none => DecryptResult.processAbort ("Failed to decode password nonce")
      | some nonceBytes =>
        if nonceBytes.length ≠ 12 then
          DecryptResult.processAbort ("nonce slice length mismatch")
        else
          CryptoService.decrypt cipher rec.encrypted_password keyBytes nonceBytes

/-- Embedding of AccountService login. Reads the account file (readFailure if
absent), decrypts the stored password, compares it to the entered password
(given as scalar values); a mismatch reports failure and leaves the state
untouched, a match rewrites the session file to the account name. -/
def login (cipher : AeadCipher) (st : AccountState) (account_name : String)
    (password : List Nat) : AccountState × LoginResult :=
  match st.accounts.lookup account_name with
  | none => (st, LoginResult.readFailure)
  | some rec =>
    match loginDecryptPassword cipher rec with
    | DecryptResult.processAbort m => (st, LoginResult.processAbort m)
    | DecryptResult.err _ => (st, LoginResult.decryptFailure)
    | DecryptResult.ok decrypted_password =>
      if decrypted_password ≠ password then (st, LoginResult.authFailure)
      else ({ st with session := some account_name }, LoginResult.success)

/-- Rust Path file_stem on an entry name: the part before the last dot, or the
whole name when there is no dot or only a leading one. -/
def fileStemChars (cs : List Char) : List Char :=
  match cs.reverse.dropWhile (fun c => c ≠ '.') with
  | [] => cs
  | _ :: stemRev => if stemRev.isEmpty then cs else stemRev.reverse

/-- File stem of an entry name as a string. -/
def fileStem (s : String) : String :=
  String.mk (fileStemChars s.toList)

/-- Embedding of AccountService list: print the file stem of every entry of
the storage directory whose stem is not the session state stem. -/
def list (entries : List String) : List String :=
  (entries.map fileStem).filter (fun n => n ≠ ("state"))

end AccountService

/-! ## NetworkService (src/services/network.rs) -/

/-- One network profile of the registry. -/
structure NetworkInfo where
  name : String
  url : Option String
  native_token : String
  chain_id : Nat
deriving DecidableEq, Repr

/-- The network service state: the in-memory registry (the HashMap modelled as
an association list), the current-network pointer, and the persisted registry
file content (none when never written). -/
structure NetworkServiceState where
  networks : List (String × NetworkInfo)
  current_network : Option String
  saved : Option (Option String × List (String × NetworkInfo))
deriving DecidableEq, Repr

/-- Outcome of add_network, tagging which message path the source took. -/
inductive AddNetworkResult where
  | added
  | duplicateChainId
  | duplicateName
deriving DecidableEq, Repr

namespace NetworkService

/-- HashMap insert on the association-list model: replace the value of an
existing key, otherwise append the new binding. -/
def insertNetwork : List (String × NetworkInfo) → String → NetworkInfo →
    List (String × NetworkInfo)
  | [], k, v => [(k, v)]
  | (k0, v0) :: t, k, v =>
    if k0 = k then (k, v) :: t else (k0, v0) :: insertNetwork t k v

/-- Rust String to_lowercase as used by the duplicate-name check (the names in
play are ASCII). -/
def strLower (s : String) : String :=
  String.mk (s.toList.map Char.toLower)

/-- Embedding of save_state: rewrite the registry file from memory. -/
def save_state (s : NetworkServiceState) : NetworkServiceState :=
  { s with saved := some (s.current_network, s.networks) }

/-- Embedding of add_network: reject a chain id already present in any profile,
then a name already present as a key (compared lower-cased), otherwise insert
the new profile and persist. Rejections neither touch the in-memory registry
nor write the file. -/
def add_network (s : NetworkServiceState) (network_name url native_token : String)
    (chain_id : Nat) : NetworkServiceState × AddNetworkResult :=
  if s.networks.any (fun kv => kv.2.chain_id = chain_id) then
    (s, AddNetworkResult.duplicateChainId)
  else if (s.networks.lookup (strLower network_name)).isSome then
    (s, AddNetworkResult.duplicateName)
  else
    (save_state { s with
        networks := insertNetwork s.networks network_name
          { name := network_name, url := some url,
            native_token := native_token, chain_id := chain_id } },
      AddNetworkResult.added)

/-- The preset profiles seeded by NetworkService new, in insertion order. -/
def defaultNetworks : List (String × NetworkInfo) :=
  [ ("ethereum_mainnet",
      { name := ("Ethereum Mainnet"), url := none, native_token := ("ETH"), chain_id := 1 }),
    ("ethereum_sepolia",
      { name := ("Ethereum Sepolia"), url := none, native_token := ("ETH"), chain_id := 11155111 }),
    ("polygon_mainnet",
      { name := ("Polygon Mainnet"), url := none, native_token := ("POL"), chain_id := 137 }),
    ("polygon_amoy",
      { name := ("Polygon Amoy"), url := none, native_token := ("POL"), chain_id := 80002 }),
    ("optimism_mainnet",
      { name := ("Optimism Mainnet"), url := none, native_token := ("ETH"), chain_id := 10 }),
    ("optimism_sepolia",
      { name := ("Optimism Sepolia"), url := none, native_token := ("ETH"), chain_id := 11155420 }),
    ("bsc_mainnet",
      { name := ("Binance Smart Chain Mainnet"), url := none, native_token := ("BNB"), chain_id := 56 }),
    ("bsc_testnet",
      { name := ("Binance Smart Chain Testnet"), url := none, native_token := ("BNB"), chain_id := 97 }),
    ("arbitrum_mainnet",
      { name := ("Arbitrum Mainnet"), url := none, native_token := ("ETH"), chain_id := 42161 }),
    ("arbitrum_sepolia",
      { name := ("Arbitrum Sepolia"), url := none, native_token := ("ETH"), chain_id := 421614 }) ]

/-- State produced by NetworkService new on a fresh start: the presets are
seeded and load_state returns immediately because no registry file exists. -/
def seededNetworkService : NetworkServiceState :=
  { networks := defaultNetworks, current_network := none, saved := none }

/-- Chain ids of the registry profiles, in registry order. -/
def chainIds (l : List (String × NetworkInfo)) : List Nat :=
  l.map (fun kv => kv.2.chain_id)

/-- A sequence of add_network calls folded over a service state; each tuple is
(name, url, native token, chain id). -/
def applyAdds (s : NetworkServiceState)
    (ops : List (String × String × String × Nat)) : NetworkServiceState :=
  ops.foldl (fun acc op => (add_network acc op.1 op.2.1 op.2.2.1 op.2.2.2).1) s

end NetworkService

/-! ## TransactionService (src/services/transaction.rs) -/

/-- Variant tag of an ethers TypedTransaction. -/
inductive TxVariant where
  | legacy
  | eip2930
  | eip1559
deriving DecidableEq, Repr

/-- Model of an ethers TypedTransaction: addresses are numbers below 2^160,
amounts numbers below 2^256, call data a byte list. The Rust fields named from
and to are called tx_from and tx_to because both are Lean keywords. -/
structure TypedTx where
  variant : TxVariant
  tx_from : Option Nat
  tx_to : Option Nat
  value : Option Nat
  data : Option (List Nat)
  gas : Option Nat
  gas_price : Option Nat
  nonce : Option Nat
  chain_id : Option Nat
deriving DecidableEq, Repr

/-- The 4-byte selector of transfer(address,uint256). -/
def transferSelector : List Nat := [0xA9, 0x05, 0x9C, 0xBB]

/-- Debug formatting of an Address: 0x followed by 40 lower-case hex digits. -/
def formatAddress (a : Nat) : String :=
  ("0x") ++ hexEncode (natToBeBytes 20 a)

/-- Alternate hex formatting of a U256: 0x followed by the minimal lower-case
hex digits. -/
def hexRepr (n : Nat) : String :=
  ("0x") ++ String.mk (Nat.toDigits 16 n)

/-- Alternate hex formatting of an H256 hash: 0x followed by all 64 digits. -/
def hashRepr (h : Nat) : String :=
  ("0x") ++ hexEncode (natToBeBytes 32 h)

/-- One record of the transaction history file. The Rust field named type is
called tx_type and the field named from is called tx_from (Lean keywords). -/
structure StoredTransaction where
  tx_type : String
  tx_from : String
  tx_to : Option String
  gas : String
  gas_price : String
  value : String
  token_value : Option String
deriving DecidableEq, Repr

/-- Embedding of StoredTransaction from_typed_transaction: when the call data
is at least 68 bytes and starts with the transfer selector, the stored
recipient is decoded from data bytes 16 to 36 and the token amount from bytes
36 to 68; otherwise the outer recipient is kept and there is no token value. -/
def StoredTransaction.from_typed_transaction (tx : TypedTx) : StoredTransaction :=
  let tx_type :=
    match tx.variant with
    | TxVariant.legacy => ("Legacy")
    | TxVariant.eip2930 => ("Eip2930")
    | TxVariant.eip1559 => ("Eip1559")
  let fromStr := match tx.tx_from with
    | some a => formatAddress a
    | none => ("")
  let pair : Option String × Option String :=
    match tx.data with
    | some input_data =>
      if 68 ≤ input_data.length ∧ transferSelector.isPrefixOf input_data = true then
        (some (formatAddress (beBytesToNat ((input_data.drop 16).take 20))),
         some (Nat.repr (beBytesToNat ((input_data.drop 36).take 32))))
      else
        (tx.tx_to.map formatAddress, none)
    | none => (tx.tx_to.map formatAddress, none)
  { tx_type := tx_type,
    tx_from := fromStr,
    tx_to := pair.1,
    gas := match tx.gas with
      | some g => hexRepr g
      | none => ("")
    gas_price := match tx.gas_price with
      | some gp => hexRepr gp
      | none => ("")
    value := match tx.value with
      | some v => hexRepr v
      | none => ("0x0")
    token_value := pair.2 }

/-- Address parsing of H160 from_str: an optional 0x prefix followed by
exactly 40 hex digits. -/
def parseAddress (s : String) : Option Nat :=
  let cs := s.toList
  let cs := if cs.take 2 = ['0', 'x'] then cs.drop 2 else cs
  if cs.length = 40 then
    cs.foldlM (fun acc c => (decodeHexDigitChar c).map (fun d => acc * 16 + d)) 0
  else none

/-- U256 from_dec_str: decimal digits only, rejecting any value that would
overflow 256 bits; the empty string parses to zero. -/
def parseDec (s : String) : Option Nat :=
  if s.toList.all (fun c => 48 ≤ c.toNat ∧ c.toNat ≤ 57) then
    let v := s.toList.foldl (fun acc c => acc * 10 + (c.toNat - 48)) 0
    if v < 2 ^ 256 then some v else none
  else none

/-- The provider capability (ethers JSON-RPC middleware); each call either
answers or fails with an error string. -/
structure Provider where
  getGasPrice : Except String Nat
  estimateGas : TypedTx → Except String Nat
  getTransactionCount : Nat → Except String Nat
  getChainId : Except String Nat
  sendRawTransaction : List Nat → Except String Nat
  getBalance : Nat → Except String Nat

/-- The unlocked signing wallet: its address and its signing capability (the
ethers LocalWallet sign_transaction call). -/
structure Wallet where
  address : Nat
  sign : TypedTx → Except String (List Nat)

/-- The transaction service state: optional provider and wallet handles. -/
structure TransactionService where
  provider : Option Provider
  wallet : Option Wallet

/-- Boolean success view of an Except result. -/
def exceptToBool {ε α : Type} : Except ε α → Bool
  | Except.ok _ => true
  | Except.error _ => false

/-- One entry of the parsed ERC20_ABI constant of config.rs. -/
structure AbiFunction where
  name : String
  constant : Bool
  inputs : List (String × String)
  outputs : List (String × String)
  payable : Bool
  stateMutability : String
deriving DecidableEq, Repr

/-- The parsed ERC20_ABI JSON constant of config.rs, transcribed entry by
entry: it holds a single function, balanceOf. -/
def ERC20_ABI : List AbiFunction :=
  [ { name := ("balanceOf"), constant := true,
      inputs := [(("_owner"), ("address"))],
      outputs := [(("") , ("uint256"))],
      payable := false, stateMutability := ("view") } ]

/-- Modelled from the spec: the ethers ABI encoder for a
transfer(address,uint256) call, which is code of the ethers library rather
than of this repository. Per the spec the call data is the fixed 4-byte
transfer selector, the recipient left-padded to 32 bytes (so occupying bytes
16 to 36), and the 32-byte big-endian amount (bytes 36 to 68). -/
def abiEncodeTransfer (recipient amount : Nat) : List Nat :=
  transferSelector ++ List.replicate 12 0 ++ natToBeBytes 20 recipient ++
    natToBeBytes 32 amount

/-- The ethers Contract method call builder for transfer: it looks the
function name up in the parsed ABI and fails when the ABI has no such entry;
on success it drafts the transaction to the token contract with the encoded
call data, the sender and the gas price. -/
def contractMethodTransfer (abi : List AbiFunction) (token_address : Nat)
    (from_address gas_price_in_wei recipient amount : Nat) : Except String TypedTx :=
  if abi.any (fun f => f.name = ("transfer")) then
    Except.ok
      { variant := TxVariant.legacy, tx_from := some from_address,
        tx_to := some token_address, value := none,
        data := some (abiEncodeTransfer recipient amount),
        gas := none, gas_price := some gas_price_in_wei,
        nonce := none, chain_id := none }
  else Except.error ("function transfer not found in the contract abi")

namespace TransactionService

/-- Embedding of TransactionService send. Every early return of the Rust
function leaves the history untouched; only after send_raw_transaction
succeeds is the history record appended (save_history_to_file) and the hash
returned. The rlp argument is the ethers rlp_signed encoder. -/
def send (svc : TransactionService) (rlp : TypedTx → List Nat → List Nat)
    (to_str value : String) (gas_price gas_limit : Option String)
    (history : List StoredTransaction) :
    List StoredTransaction × Except String String :=
  match parseAddress to_str with
  | none => (history, Except.error ("Invalid destination address format"))
  | some to_address =>
  match parseDec value with
  | none => (history, Except.error ("Invalid amount format"))
  | some value_in_wei =>
  match svc.provider with
  | none => (history, Except.error ("Provider not set"))
  | some provider =>
  match svc.wallet with
  | none => (history, Except.error ("Wallet not set"))
  | some wallet =>
  match (match gas_price with
         | some gp => match parseDec gp with
           | some v => Except.ok v
           | none => Except.error ("Invalid gas price format")
         | none => provider.getGasPrice) with
  | Except.error e => (history, Except.error e)
  | Except.ok gas_price_in_wei =>
  let typed_tx : TypedTx :=
    { variant := TxVariant.legacy, tx_from := some wallet.address,
      tx_to := some to_address, value := some value_in_wei, data := none,
      gas := none, gas_price := some gas_price_in_wei,
      nonce := none, chain_id := none }
  match (match gas_limit with
         | some gl => match parseDec gl with
           | some v => Except.ok v
           | none => Except.error ("Invalid gas limit format")
         | none => provider.estimateGas typed_tx) with
  | Except.error e => (history, Except.error e)
  | Except.ok gas_limit_in_units =>
  match provider.getTransactionCount wallet.address with
  | Except.error e => (history, Except.error e)
  | Except.ok nonce =>
  match provider.getChainId with
  | Except.error e => (history, Except.error e)
  | Except.ok chain_id =>
  let typed_tx := { typed_tx with
    chain_id := some chain_id, gas := some gas_limit_in_units, nonce := some nonce }
  match wallet.sign typed_tx with
  | Except.error e => (history, Except.error e)
  | Except.ok signature =>
  match provider.sendRawTransaction (rlp typed_tx signature) with
  | Except.error e => (history, Except.error e)
  | Except.ok tx_hash =>
    (history ++ [StoredTransaction.from_typed_transaction typed_tx],
      Except.ok (hashRepr tx_hash))

/-- Embedding of TransactionService send_token: like send, but the drafted
transaction comes from the Contract transfer method over the parsed ERC20_ABI
constant, is routed to the token contract address, and carries the recipient
and amount in its call data. Every early return leaves the history untouched. -/
def send_token (svc : TransactionService) (rlp : TypedTx → List Nat → List Nat)
    (to_str value token_address : String) (gas_price gas_limit : Option String)
    (history : List StoredTransaction) :
    List StoredTransaction × Except String String :=
  match parseAddress to_str with
  | none => (history, Except.error ("Invalid destination address format"))
  | some to_address =>
  match parseDec value with
  | none => (history, Except.error ("Invalid amount format"))
  | some value_in_wei =>
  match svc.provider with
  | none => (history, Except.error ("Provider not set"))
  | some provider =>
  match svc.wallet with
  | none => (history, Except.error ("Wallet not set"))
  | some wallet =>
  match (match gas_price with
         | some gp => match parseDec gp with
           | some v => Except.ok v
           | none => Except.error ("Invalid gas price format")
         | none => provider.getGasPrice) with
  | Except.error e => (history, Except.error e)
  | Except.ok gas_price_in_wei =>
  match parseAddress token_address with
  | none => (history, Except.error ("Invalid token address format"))
  | some token_addr =>
  match contractMethodTransfer ERC20_ABI token_addr wallet.address
      gas_price_in_wei to_address value_in_wei with
  | Except.error e => (history, Except.error e)
  | Except.ok tx_request =>
  match (match gas_limit with
         | some gl => match parseDec gl with
           | some v => Except.ok v
           | none => Except.error ("Invalid gas limit format")
         | none => provider.estimateGas tx_request) with
  | Except.error e => (history, Except.error e)
  | Except.ok gas_limit_in_units =>
  match provider.getTransactionCount wallet.address with
  | Except.error e => (history, Except.error e)
  | Except.ok nonce =>
  match provider.getChainId with
  | Except.error e => (history, Except.error e)
  | Except.ok chain_id =>
  let typed_tx := { tx_request with
    chain_id := some chain_id, gas := some gas_limit_in_units, nonce := some nonce }
  match wallet.sign typed_tx with
  | Except.error e => (history, Except.error e)
  | Except.ok signature =>
  match provider.sendRawTransaction (rlp typed_tx signature) with
  | Except.error e => (history, Except.error e)
  | Except.ok tx_hash =>
    (history ++ [StoredTransaction.from_typed_transaction typed_tx],
      Except.ok (hashRepr tx_hash))

/-- The To address displayed by the info command: decoded from call data
bytes 16 to 36 when the data is at least 68 bytes and starts with the
transfer selector, otherwise the outer recipient (zero when absent). -/
def info_displayed_to (input : List Nat) (tx_to : Option Nat) : Nat :=
  if 68 ≤ input.length ∧ transferSelector.isPrefixOf input = true then
    beBytesToNat ((input.drop 16).take 20)
  else tx_to.getD 0

/-- The token value displayed by the info command: read from call data bytes
36 to 68 whenever the slice exists, that is whenever the data is at least 68
bytes long, with no selector check. -/
def info_token_value (input : List Nat) : Option Nat :=
  if 68 ≤ input.length then some (beBytesToNat ((input.drop 36).take 32))
  else none

/-- Embedding of wei_to_eth: the integer quotient by 10 to the 18, a dot, and
the remainder, each written in decimal by the U256 Display instance. -/
def wei_to_eth (wei : Nat) : String :=
  let eth_in_wei := 10 ^ 18
  let eth := wei / eth_in_wei
  let remainder := wei % eth_in_wei
  Nat.repr eth ++ (".") ++ Nat.repr remainder

/-- Embedding of get_balance: requires the wallet then the provider, asks the
provider for the balance and renders the account-balance line with the
native-asset symbol. -/
def get_balance (svc : TransactionService) (native_token : String) :
    Except String String :=
  match svc.wallet with
  | none => Except.error ("Wallet not set")
  | some wallet =>
    match svc.provider with
    | none => Except.error ("Provider not set")
    | some provider =>
      match provider.getBalance wallet.address with
      | Except.error e => Except.error e
      | Except.ok balance =>
        Except.ok (("Account balance: ") ++ wei_to_eth balance ++ (" ") ++ native_token)

/-- Path of the per-account per-network history file. -/
def tx_history_file (account_name network_name : String) : String :=
  STORAGE_DIR ++ ("/") ++ account_name ++ ("/") ++ network_name ++ ("/tx_history.json")

/-- Embedding of load_history_from_file: a missing file is the empty history,
and content that fails to deserialize (the parse argument models the serde
JSON deserializer) is also the empty history; no error reaches the caller. -/
def load_history_from_file (parse : String → Option (List StoredTransaction))
    (fs : String → Option String) (account_name network_name : String) :
    List StoredTransaction :=
  match fs (tx_history_file account_name network_name) with
  | none => []
  | some content =>
    match parse content with
    | none => []
    | some h => h

end TransactionService

/-! ## Concrete fixtures used by witnesses and counterexamples -/

/-- Identity cipher: a trivially correct AEAD instance for concrete runs. -/
def idCipher : AeadCipher :=
  { enc := fun _ _ m => some m, dec := fun _ _ m => some m }

/-- Cipher whose decryption always rejects, as after tampering with the
ciphertext or nonce so that the integrity tag check fails. -/
def nullCipher : AeadCipher :=
  { enc := fun _ _ m => some m, dec := fun _ _ _ => none }

/-- A concrete 32-byte key. -/
def key0 : List Nat := List.replicate 32 0

/-- A concrete 12-byte nonce. -/
def nonce0 : List Nat := List.replicate 12 0

/-- A concrete account record produced with idCipher; the stored password is
the two-character text pw, scalar values [112, 119]. -/
def rec0 : AccountRecord :=
  { account_name := ("alice"),
    encrypted_password := hexEncode (utf8Encode [112, 119]),
    password_nonce := hexEncode nonce0,
    encrypted_seed_phrase := (""),
    seed_nonce := (""),
    encryption_key := hexEncode key0 }

/-- A concrete account store holding only alice, with no session. -/
def st0 : AccountState :=
  { accounts := [(("alice"), rec0)], session := none }

/-- A provider whose calls all answer (the fixed stub of the spec). -/
def okProvider : Provider :=
  { getGasPrice := Except.ok 20000000000,
    estimateGas := fun _ => Except.ok 21000,
    getTransactionCount := fun _ => Except.ok 5,
    getChainId := Except.ok 1,
    sendRawTransaction := fun _ => Except.ok 7,
    getBalance := fun _ => Except.ok 0 }

/-- A provider whose calls all fail. -/
def failProvider : Provider :=
  { getGasPrice := Except.error ("provider failure"),
    estimateGas := fun _ => Except.error ("provider failure"),
    getTransactionCount := fun _ => Except.error ("provider failure"),
    getChainId := Except.error ("provider failure"),
    sendRawTransaction := fun _ => Except.error ("provider failure"),
    getBalance := fun _ => Except.error ("provider failure") }

/-- A concrete wallet that always signs. -/
def wallet0 : Wallet := { address := 3, sign := fun _ => Except.ok [1] }

/-- Transaction service wired to the answering provider. -/
def svc0 : TransactionService := { provider := some okProvider, wallet := some wallet0 }

/-- Transaction service wired to the failing provider. -/
def svcF : TransactionService := { provider := some failProvider, wallet := some wallet0 }

/-- A concrete rlp_signed encoder stand-in. -/
def rlp0 : TypedTx → List Nat → List Nat := fun _ _ => []

/-- A concrete valid recipient address string. -/
def addrA : String := "0x1111111111111111111111111111111111111111"

/-- A concrete valid token contract address string. -/
def addrB : String := "0x2222222222222222222222222222222222222222"

/-- The seeded registry after adding a custom profile at chain id 999. -/
def s999 : NetworkServiceState :=
  (NetworkService.add_network NetworkService.seededNetworkService
    ("a") ("url") ("TOK") 999).1

/-- A concrete transaction whose call data encodes transfer(1, 2). -/
def txTok : TypedTx :=
  { variant := TxVariant.legacy, tx_from := some 3, tx_to := some 9,
    value := some 0, data := some (abiEncodeTransfer 1 2),
    gas := none, gas_price := none, nonce := none, chain_id := none }

/-! ## Helper lemmas -/

theorem decodeHexDigitChar_hexDigitChar (d : Nat) (hd : d < 16) :
    decodeHexDigitChar (hexDigitChar d) = some d := by
  interval_cases d <;> decide

theorem hexDecodeChars_hexChars (bs : List Nat) (hb : ∀ b ∈ bs, b < 256) :
    hexDecodeChars (hexChars bs) = some bs := by
  induction bs with
  | nil => rfl
  | cons b t ih =>
    have hb0 : b < 256 := hb b (by simp)
    have h1 : b / 16 < 16 := by omega
    have h2 : b % 16 < 16 := by omega
    have ht : hexDecodeChars (hexChars t) = some t :=
      ih (fun x hx => hb x (by simp [hx]))
    simp [hexChars, hexDecodeChars, decodeHexDigitChar_hexDigitChar _ h1,
      decodeHexDigitChar_hexDigitChar _ h2, ht]
    omega

theorem hexDecode_hexEncode (bs : List Nat) (hb : ∀ b ∈ bs, b < 256) :
    hexDecode (hexEncode bs) = some bs := by
  have : (hexEncode bs).toList = hexChars bs := rfl
  rw [hexDecode, this, hexDecodeChars_hexChars bs hb]

theorem utf8EncodeChar_ne_nil (c : Nat) : utf8EncodeChar c ≠ [] := by
  unfold utf8EncodeChar
  split_ifs <;> simp

theorem utf8DecodeStep_encodeChar (c : Nat) (hc : IsScalar c) (t : List Nat) :
    utf8DecodeStep (utf8EncodeChar c ++ t) = some (c, t) := by
  obtain ⟨hlt, hsurr⟩ := hc
  by_cases h1 : c < 0x80
  · have e1 : utf8EncodeChar c = [c] := by
      unfold utf8EncodeChar
      rw [if_pos h1]
    rw [e1]
    simp only [List.cons_append, List.nil_append]
    rw [utf8DecodeStep.eq_def]
    dsimp only
    rw [if_pos h1]
  · by_cases h2 : c < 0x800
    · have e1 : utf8EncodeChar c = [0xC0 + c / 64, 0x80 + c % 64] := by
        unfold utf8EncodeChar
        rw [if_neg h1, if_pos h2]
      rw [e1]
      simp only [List.cons_append, List.nil_append]
      rw [utf8DecodeStep.eq_def]
      dsimp only
      rw [if_neg (by omega), if_pos (by omega)]
      rw [if_pos (by refine ⟨by omega, by omega, by omega⟩)]
      have hv : (0xC0 + c / 64 - 0xC0) * 64 + (0x80 + c % 64 - 0x80) = c := by omega
      rw [hv]
    · by_cases h3 : c < 0x10000
      · have e1 : utf8EncodeChar c =
            [0xE0 + c / 4096, 0x80 + (c / 64) % 64, 0x80 + c % 64] := by
          unfold utf8EncodeChar
          rw [if_neg h1, if_neg h2, if_pos h3]
        have hdd : c / 64 / 64 = c / 4096 := by
          rw [Nat.div_div_eq_div_mul]
        rw [e1]
        simp only [List.cons_append, List.nil_append]
        rw [utf8DecodeStep.eq_def]
        dsimp only
        rw [if_neg (by omega), if_neg (by omega), if_pos (by omega)]
        rw [if_pos (by
          refine ⟨⟨by omega, by omega⟩, ⟨by omega, by omega⟩, by omega, by omega⟩)]
        have hv : (0xE0 + c / 4096 - 0xE0) * 4096 + (0x80 + (c / 64) % 64 - 0x80) * 64 +
            (0x80 + c % 64 - 0x80) = c := by omega
        rw [hv]
      · have e1 : utf8EncodeChar c =
            [0xF0 + c / 262144, 0x80 + (c / 4096) % 64, 0x80 + (c / 64) % 64,
              0x80 + c % 64] := by
          unfold utf8EncodeChar
          rw [if_neg h1, if_neg h2, if_neg h3]
        have hdd1 : c / 64 / 64 = c / 4096 := by
          rw [Nat.div_div_eq_div_mul]
        have hdd2 : c / 4096 / 64 = c / 262144 := by
          rw [Nat.div_div_eq_div_mul]
        rw [e1]
        simp only [List.cons_append, List.nil_append]
        rw [utf8DecodeStep.eq_def]
        dsimp only
        rw [if_neg (by omega), if_neg (by omega), if_neg (by omega)]
        rw [if_pos (by
          refine ⟨by omega, ⟨by omega, by omega⟩, ⟨by omega, by omega⟩,
            ⟨by omega, by omega⟩, by omega, by omega⟩)]
        have hv : (0xF0 + c / 262144 - 0xF0) * 262144 +
            (0x80 + (c / 4096) % 64 - 0x80) * 4096 +
            (0x80 + (c / 64) % 64 - 0x80) * 64 + (0x80 + c % 64 - 0x80) = c := by omega
        rw [hv]

theorem utf8DecodeLoop_utf8Encode (cs : List Nat) : ∀ (fuel : Nat),
    (∀ c ∈ cs, IsScalar c) → (utf8Encode cs).length ≤ fuel →
    utf8DecodeLoop fuel (utf8Encode cs) = some cs := by
  induction cs with
  | nil =>
    intro fuel _ _
    have e0 : utf8Encode [] = [] := rfl
    rw [e0]
    cases fuel <;> rfl
  | cons c t ih =>
    intro fuel hsc hfuel
    have e1 : utf8Encode (c :: t) = utf8EncodeChar c ++ utf8Encode t := by
      simp [utf8Encode]
    have hne : utf8EncodeChar c ++ utf8Encode t ≠ [] := by
      simp [utf8EncodeChar_ne_nil c]
    have hlen1 : 1 ≤ (utf8EncodeChar c).length := by
      cases he : utf8EncodeChar c with
      | nil => exact absurd he (utf8EncodeChar_ne_nil c)
      | cons x xs => simp
    rw [e1] at hfuel ⊢
    cases fuel with
    | zero =>
      exfalso
      rw [List.length_append] at hfuel
      omega
    | succ fuel =>
      obtain ⟨b, bs, hbs⟩ : ∃ b bs, utf8EncodeChar c ++ utf8Encode t = b :: bs := by
        cases hcase : utf8EncodeChar c ++ utf8Encode t with
        | nil => exact absurd hcase hne
        | cons b bs => exact ⟨b, bs, rfl⟩
      rw [hbs]
      rw [utf8DecodeLoop]
      rw [← hbs, utf8DecodeStep_encodeChar c (hsc c (by simp)) (utf8Encode t)]
      have hlen2 : (utf8Encode t).length ≤ fuel := by
        rw [List.length_append] at hfuel
        omega
      dsimp only
      rw [ih fuel (fun x hx => hsc x (by simp [hx])) hlen2]
      rfl

theorem utf8DecodeBytes_utf8Encode (cs : List Nat) (h : ∀ c ∈ cs, IsScalar c) :
    utf8DecodeBytes (utf8Encode cs) = some cs :=
  utf8DecodeLoop_utf8Encode cs (utf8Encode cs).length h (le_refl _)

theorem length_natToBeBytes (k n : Nat) : (natToBeBytes k n).length = k := by
  induction k generalizing n with
  | zero => rfl
  | succ k ih => simp [natToBeBytes, ih]

theorem beBytesToNat_natToBeBytes (k n : Nat) :
    beBytesToNat (natToBeBytes k n) = n % 256 ^ k := by
  induction k generalizing n with
  | zero => simp [natToBeBytes, beBytesToNat, Nat.mod_one]
  | succ k ih =>
    have e1 : beBytesToNat (natToBeBytes (k + 1) n) =
        beBytesToNat (natToBeBytes k (n / 256)) * 256 + n % 256 := by
      simp [natToBeBytes, beBytesToNat, List.foldl_append]
    rw [e1, ih, pow_succ']
    rw [Nat.mod_mul]
    ring

theorem fileStem_append_json (name : String) (h : name ≠ ("")) :
    AccountService.fileStem (name ++ (".json")) = name := by
  have hnil : name.data ≠ [] := by
    intro hd
    apply h
    cases name with
    | mk l =>
      cases hd
      rfl
  have hdata : (name ++ (".json")).toList = name.toList ++ ['.', 'j', 's', 'o', 'n'] := by
    rw [String.toList, String.data_append]
    rfl
  unfold AccountService.fileStem AccountService.fileStemChars
  rw [hdata, List.reverse_append]
  have hstep : List.dropWhile (fun c => c ≠ '.')
      ((['.', 'j', 's', 'o', 'n'] : List Char).reverse ++ name.toList.reverse) =
      '.' :: name.toList.reverse := by
    simp [List.dropWhile]
  rw [hstep]
  dsimp only
  rw [if_neg (by simp [String.toList, hnil])]
  rw [List.reverse_reverse]
  cases name with
  | mk l => rfl

theorem chainIds_insertNetwork_sub (l : List (String × NetworkInfo)) (k : String)
    (v : NetworkInfo) :
    ∀ x ∈ NetworkService.chainIds (NetworkService.insertNetwork l k v),
      x = v.chain_id ∨ x ∈ NetworkService.chainIds l := by
  induction l with
  | nil =>
    intro x hx
    simp [NetworkService.insertNetwork, NetworkService.chainIds] at hx
    left
    exact hx
  | cons kv t ih =>
    obtain ⟨k0, v0⟩ := kv
    intro x hx
    rw [NetworkService.insertNetwork] at hx
    by_cases hk : k0 = k
    · rw [if_pos hk] at hx
      simp [NetworkService.chainIds] at hx ⊢
      tauto
    · rw [if_neg hk] at hx
      simp [NetworkService.chainIds] at hx ⊢
      rcases hx with hx | hx
      · tauto
      · have := ih x (by simpa [NetworkService.chainIds] using hx)
        simp [NetworkService.chainIds] at this
        tauto

theorem nodup_chainIds_insertNetwork (l : List (String × NetworkInfo)) (k : String)
    (v : NetworkInfo) (hfresh : ∀ kv ∈ l, kv.2.chain_id ≠ v.chain_id)
    (hd : (NetworkService.chainIds l).Nodup) :
    (NetworkService.chainIds (NetworkService.insertNetwork l k v)).Nodup := by
  induction l with
  | nil =>
    simp [NetworkService.insertNetwork, NetworkService.chainIds]
  | cons kv t ih =>
    obtain ⟨k0, v0⟩ := kv
    rw [NetworkService.insertNetwork]
    by_cases hk : k0 = k
    · rw [if_pos hk]
      have e1 : NetworkService.chainIds ((k, v) :: t) =
          v.chain_id :: NetworkService.chainIds t := rfl
      have e2 : NetworkService.chainIds ((k0, v0) :: t) =
          v0.chain_id :: NetworkService.chainIds t := rfl
      rw [e2, List.nodup_cons] at hd
      rw [e1, List.nodup_cons]
      refine ⟨?_, hd.2⟩
      intro hmem
      rcases List.mem_map.mp hmem with ⟨kv2, hkv2, hh⟩
      exact hfresh kv2 (by simp [hkv2]) hh
    · rw [if_neg hk]
      have e2 : NetworkService.chainIds ((k0, v0) :: t) =
          v0.chain_id :: NetworkService.chainIds t := rfl
      have e3 : NetworkService.chainIds ((k0, v0) :: NetworkService.insertNetwork t k v) =
          v0.chain_id :: NetworkService.chainIds (NetworkService.insertNetwork t k v) := rfl
      rw [e2, List.nodup_cons] at hd
      rw [e3, List.nodup_cons]
      constructor
      · intro hmem
        rcases chainIds_insertNetwork_sub t k v v0.chain_id hmem with hh | hh
        · exact hfresh (k0, v0) (by simp) (by simpa using hh)
        · exact hd.1 hh
      · exact ih (fun x hx => hfresh x (by simp [hx])) hd.2

theorem nodup_chainIds_add_network (s : NetworkServiceState)
    (network_name url native_token : String) (chain_id : Nat)
    (hd : (NetworkService.chainIds s.networks).Nodup) :
    (NetworkService.chainIds
      (NetworkService.add_network s network_name url native_token chain_id).1.networks).Nodup := by
  rw [NetworkService.add_network]
  split_ifs with hdup hname
  · exact hd
  · exact hd
  · dsimp [NetworkService.save_state]
    apply nodup_chainIds_insertNetwork _ _ _ _ hd
    intro kv hkv heq
    apply hdup
    exact List.any_eq_true.mpr ⟨kv, hkv, by simp [heq]⟩

theorem nodup_chainIds_applyAdds (ops : List (String × String × String × Nat)) :
    ∀ s : NetworkServiceState, (NetworkService.chainIds s.networks).Nodup →
    (NetworkService.chainIds (NetworkService.applyAdds s ops).networks).Nodup := by
  induction ops with
  | nil =>
    intro s hd
    exact hd
  | cons op t ih =>
    intro s hd
    have e1 : NetworkService.applyAdds s (op :: t) =
        NetworkService.applyAdds
          (NetworkService.add_network s op.1 op.2.1 op.2.2.1 op.2.2.2).1 t := by
      rw [NetworkService.applyAdds, List.foldl_cons]
      rfl
    rw [e1]
    exact ih _ (nodup_chainIds_add_network s op.1 op.2.1 op.2.2.1 op.2.2.2 hd)

/-! ## Claim theorems -/

/-- C2: for every plaintext string p and every generated 256-bit key, decrypting
the (ciphertext, nonce) pair returned by encrypt(p, k) with the same key and
nonce returns exactly p. The AEAD primitive is the external aes_gcm crate,
abstracted as a cipher; the hypotheses state its documented behavior on this
call: decryption inverts encryption under the same key and nonce, and the
ciphertext is a byte string. -/
theorem c2_encrypt_decrypt_roundtrip (cipher : AeadCipher) (p key nonce ct : List Nat)
    (hp : ∀ c ∈ p, IsScalar c)
    (henc : cipher.enc key nonce (utf8Encode p) = some ct)
    (hct : ∀ b ∈ ct, b < 256)
    (hdec : cipher.dec key nonce ct = some (utf8Encode p)) :
    CryptoService.encrypt cipher p key nonce = EncryptResult.ok (hexEncode ct) nonce ∧
    CryptoService.decrypt cipher (hexEncode ct) key nonce = DecryptResult.ok p := by
  constructor
  · rw [CryptoService.encrypt, henc]
  · rw [CryptoService.decrypt, hexDecode_hexEncode ct hct]
    dsimp only
    rw [hdec]
    dsimp only
    rw [utf8DecodeBytes_utf8Encode p hp]

/-- Witness for C2 at the concrete plaintext pw (scalar values [112, 119]),
the all-zero key and nonce, and the identity cipher. -/
theorem c2_witness :
    CryptoService.encrypt idCipher [112, 119] key0 nonce0 =
      EncryptResult.ok (hexEncode [112, 119]) nonce0 ∧
    CryptoService.decrypt idCipher (hexEncode [112, 119]) key0 nonce0 =
      DecryptResult.ok [112, 119] :=
  c2_encrypt_decrypt_roundtrip idCipher [112, 119] key0 nonce0 [112, 119]
    (by decide) (by rfl) (by decide) (by rfl)

/-- C3 (code bug): the claim says decrypt fails with a recoverable
AuthenticationError on malformed hex ciphertext or a failed integrity tag and
never aborts the process; the source instead calls expect on both paths and
panics. Evaluated here: malformed hex ciphertext aborts with the decoding
expect message, and a ciphertext the cipher rejects (any tampered input)
aborts with the decryption expect message. -/
theorem c3_decrypt_aborts_instead_of_recoverable_error :
    CryptoService.decrypt idCipher ("zz") key0 nonce0 =
      DecryptResult.processAbort ("decoding failure!") ∧
    CryptoService.decrypt nullCipher (hexEncode [1, 2, 3]) key0 nonce0 =
      DecryptResult.processAbort ("decryption failure!") := by
  constructor <;> rfl

/-- C1 (code bug): the claim says send_token ABI-encodes a
transfer(address,uint256) call against the two-function token ABI and proceeds
to sign and broadcast; but the ERC20_ABI constant of config.rs holds only
balanceOf, so the Contract transfer method lookup fails and every send_token
call errors at encoding time with the history untouched, here evaluated at a
valid recipient, amount, token address and fully answering provider. -/
theorem c1_send_token_fails_at_abi_encoding :
    TransactionService.send_token svc0 rlp0 addrA ("1") addrB none none [] =
      ([], Except.error ("function transfer not found in the contract abi")) ∧
    ERC20_ABI.map AbiFunction.name = [("balanceOf")] := by
  constructor <;> rfl

/-- C4: for every stored account record and entered password, login leaves the
session unchanged and reports the authentication failure when the decrypted
stored password differs from the input, and sets the session to the account
name exactly when they match. -/
theorem c4_login_authentication (cipher : AeadCipher) (st : AccountState)
    (account_name : String) (password pw : List Nat) (record : AccountRecord)
    (hrec : st.accounts.lookup account_name = some record)
    (hdec : AccountService.loginDecryptPassword cipher record = DecryptResult.ok pw) :
    AccountService.login cipher st account_name password =
      if pw = password then
        ({ st with session := some account_name }, LoginResult.success)
      else (st, LoginResult.authFailure) := by
  rw [AccountService.login, hrec]
  dsimp only
  rw [hdec]
  dsimp only
  by_cases hpw : pw = password
  · rw [if_neg (by simp [hpw]), if_pos hpw]
  · rw [if_pos hpw, if_neg hpw]

/-- Witness for C4: with the concrete record of alice (stored password pw),
the wrong password ww leaves the empty session untouched and reports the
authentication failure, and the right password sets the session to alice. -/
theorem c4_witness :
    AccountService.login idCipher st0 ("alice") [119, 119] = (st0, LoginResult.authFailure) ∧
    AccountService.login idCipher st0 ("alice") [112, 119] =
      ({ st0 with session := some ("alice") }, LoginResult.success) := by
  constructor
  · rw [c4_login_authentication idCipher st0 ("alice") [119, 119] [112, 119] rec0
      (by rfl) (by decide)]
    rfl
  · rw [c4_login_authentication idCipher st0 ("alice") [112, 119] [112, 119] rec0
      (by rfl) (by decide)]
    rfl

/-- C9: for every (account, network) pair, loading the history when the file
is missing or when its content fails to deserialize yields the empty sequence,
never an error surfaced to the caller (the return type carries no error at
all). -/
theorem c9_missing_or_corrupt_history_is_empty
    (parse : String → Option (List StoredTransaction)) (fs : String → Option String)
    (account_name network_name : String) :
    (fs (TransactionService.tx_history_file account_name network_name) = none →
      TransactionService.load_history_from_file parse fs account_name network_name = []) ∧
    (∀ content,
      fs (TransactionService.tx_history_file account_name network_name) = some content →
      parse content = none →
      TransactionService.load_history_from_file parse fs account_name network_name = []) := by
  constructor
  · intro h
    rw [TransactionService.load_history_from_file, h]
  · intro content h hp
    rw [TransactionService.load_history_from_file, h]
    dsimp only
    rw [hp]

/-- Witness for C9: a missing file and an unparseable file both load as the
empty history for the concrete pair (alice, net). -/
theorem c9_witness :
    TransactionService.load_history_from_file (fun _ => none) (fun _ => none)
      ("alice") ("net") = [] ∧
    TransactionService.load_history_from_file (fun _ => none)
      (fun _ => some ("garbage")) ("alice") ("net") = [] := by
  constructor
  · exact (c9_missing_or_corrupt_history_is_empty (fun _ => none) (fun _ => none)
      ("alice") ("net")).1 rfl
  · exact (c9_missing_or_corrupt_history_is_empty (fun _ => none)
      (fun _ => some ("garbage")) ("alice") ("net")).2 ("garbage") rfl rfl

/-- C10: get_balance displays the native amount as the decimal quotient by
10^18, a dot, and the decimal remainder without zero-padding, so 10^18 + 1
wei renders as 1.1 and not as 1.000000000000000001. -/
theorem c10_wei_to_eth_display :
    (∀ w : Nat, TransactionService.wei_to_eth w =
      Nat.repr (w / 10 ^ 18) ++ (".") ++ Nat.repr (w % 10 ^ 18)) ∧
    TransactionService.wei_to_eth (10 ^ 18 + 1) = ("1.1") ∧
    TransactionService.wei_to_eth (10 ^ 18 + 1) ≠ ("1.000000000000000001") ∧
    (∀ (svc : TransactionService) (wallet : Wallet) (provider : Provider) (b : Nat)
      (native_token : String),
      svc.wallet = some wallet → svc.provider = some provider →
      provider.getBalance wallet.address = Except.ok b →
      TransactionService.get_balance svc native_token =
        Except.ok (("Account balance: ") ++ TransactionService.wei_to_eth b ++
          (" ") ++ native_token)) := by
  refine ⟨fun w => rfl, by decide, by decide, ?_⟩
  intro svc wallet provider b native_token hw hp hb
  rw [TransactionService.get_balance, hw]
  dsimp only
  rw [hp]
  dsimp only
  rw [hb]

/-- Witness for C10: the balance line for a zero balance and the ETH symbol
under the answering provider. -/
theorem c10_witness :
    TransactionService.get_balance svc0 ("ETH") =
      Except.ok (("Account balance: ") ++ TransactionService.wei_to_eth 0 ++
        (" ") ++ ("ETH")) :=
  c10_wei_to_eth_display.2.2.2 svc0 wallet0 okProvider 0 ("ETH") rfl rfl rfl

/-- C7: an add_network call whose chain id is already registered is rejected
as a duplicate with the whole service state (in-memory registry, current
pointer and persisted file) returned unchanged; insertion preserves
distinctness of chain ids, so every sequence of insertions starting from the
seeded presets keeps all chain ids distinct. -/
theorem c7_chain_id_uniqueness :
    (∀ (s : NetworkServiceState) (network_name url native_token : String)
      (chain_id : Nat), (∃ kv ∈ s.networks, kv.2.chain_id = chain_id) →
      NetworkService.add_network s network_name url native_token chain_id =
        (s, AddNetworkResult.duplicateChainId)) ∧
    (∀ (s : NetworkServiceState) (network_name url native_token : String)
      (chain_id : Nat), (NetworkService.chainIds s.networks).Nodup →
      (NetworkService.chainIds
        (NetworkService.add_network s network_name url native_token chain_id).1.networks).Nodup) ∧
    (∀ ops : List (String × String × String × Nat),
      (NetworkService.chainIds
        (NetworkService.applyAdds NetworkService.seededNetworkService ops).networks).Nodup) := by
  refine ⟨?_, ?_, ?_⟩
  · intro s network_name url native_token chain_id hex
    obtain ⟨kv, hkv, hc⟩ := hex
    rw [NetworkService.add_network,
      if_pos (List.any_eq_true.mpr ⟨kv, hkv, by simp [hc]⟩)]
  · exact fun s n u tok cid hd => nodup_chainIds_add_network s n u tok cid hd
  · intro ops
    exact nodup_chainIds_applyAdds ops _ (by decide)

/-- Witness for C7: after adding profile a at chain id 999 to the seeded
registry, adding b at chain id 999 is rejected with the state unchanged, and
the two-insertion sequence keeps all chain ids distinct. -/
theorem c7_witness :
    NetworkService.add_network s999 ("b") ("url2") ("TOK2") 999 =
      (s999, AddNetworkResult.duplicateChainId) ∧
    (NetworkService.chainIds
      (NetworkService.applyAdds NetworkService.seededNetworkService
        [(("a"), ("url"), ("TOK"), 999), (("b"), ("url2"), ("TOK2"), 999)]).networks).Nodup := by
  constructor
  · exact c7_chain_id_uniqueness.1 s999 ("b") ("url2") ("TOK2") 999 (by decide)
  · exact c7_chain_id_uniqueness.2.2
      [(("a"), ("url"), ("TOK"), 999), (("b"), ("url2"), ("TOK2"), 999)]

theorem fileStem_mem_list (entries : List String) (e : String) (he : e ∈ entries)
    (hs : AccountService.fileStem e ≠ ("state")) :
    AccountService.fileStem e ∈ AccountService.list entries := by
  unfold AccountService.list
  apply List.mem_filter.mpr
  constructor
  · exact List.mem_map.mpr ⟨e, he, rfl⟩
  · simp [hs]

/-- C8 (counterexample): with the storage directory holding the record of the
single account alice, the session file and the network registry file as laid
out by the config constants, the listing is not exactly the account records:
the registry file stem networks is listed as well. -/
theorem c8_counterexample :
    AccountService.list [("alice.json"), ("state.json"), ("networks.json")] =
      [("alice"), ("networks")] ∧
    AccountService.list [("alice.json"), ("state.json"), ("networks.json")] ≠
      [("alice")] := by
  constructor <;> decide

/-- C8 (amended): list prints the file stem of every storage-directory entry
other than those with stem state, so every created account record appears and
only stem state is excluded; but entries that are not account records, such
as the network registry file, are listed too. -/
theorem c8_list_amended :
    (∀ (entries : List String) (name : String), name ≠ ("") → name ≠ ("state") →
      (name ++ (".json")) ∈ entries → name ∈ AccountService.list entries) ∧
    (∀ entries : List String, ("state") ∉ AccountService.list entries) ∧
    (∀ (entries : List String) (e : String), e ∈ entries →
      AccountService.fileStem e ≠ ("state") →
      AccountService.fileStem e ∈ AccountService.list entries) := by
  refine ⟨?_, ?_, fileStem_mem_list⟩
  · intro entries name hne hst hmem
    have hstem := fileStem_append_json name hne
    have := fileStem_mem_list entries (name ++ (".json")) hmem (by rw [hstem]; exact hst)
    rw [hstem] at this
    exact this
  · intro entries hmem
    have := (List.mem_filter.mp hmem).2
    simp at this

/-- Witness for C8: the created account alice appears in the listing of the
concrete storage directory. -/
theorem c8_witness :
    ("alice") ∈ AccountService.list [("alice.json"), ("state.json"), ("networks.json")] :=
  c8_list_amended.1 [("alice.json"), ("state.json"), ("networks.json")] ("alice")
    (by decide) (by decide) (by decide)

theorem abiEncodeTransfer_length (r a : Nat) : (abiEncodeTransfer r a).length = 68 := by
  simp [abiEncodeTransfer, transferSelector, length_natToBeBytes]

theorem transferSelector_isPrefixOf_abiEncodeTransfer (r a : Nat) :
    transferSelector.isPrefixOf (abiEncodeTransfer r a) = true := by
  simp [abiEncodeTransfer, transferSelector, List.isPrefixOf]

theorem abiEncodeTransfer_drop16 (r a : Nat) :
    ((abiEncodeTransfer r a).drop 16).take 20 = natToBeBytes 20 r := by
  have e1 : abiEncodeTransfer r a =
      (transferSelector ++ List.replicate 12 0) ++
        (natToBeBytes 20 r ++ natToBeBytes 32 a) := by
    simp [abiEncodeTransfer, List.append_assoc]
  rw [e1, List.drop_left' (by simp [transferSelector])]
  rw [List.take_left' (length_natToBeBytes 20 r)]

theorem abiEncodeTransfer_drop36 (r a : Nat) :
    ((abiEncodeTransfer r a).drop 36).take 32 = natToBeBytes 32 a := by
  have e1 : abiEncodeTransfer r a =
      ((transferSelector ++ List.replicate 12 0) ++ natToBeBytes 20 r) ++
        natToBeBytes 32 a := by
    simp [abiEncodeTransfer, List.append_assoc]
  rw [e1, List.drop_left' (by simp [transferSelector, length_natToBeBytes])]
  exact List.take_of_length_le (by rw [length_natToBeBytes])

theorem from_typed_transaction_token_case (tx : TypedTx) (d : List Nat)
    (htx : tx.data = some d)
    (hcond : 68 ≤ d.length ∧ transferSelector.isPrefixOf d = true) :
    (StoredTransaction.from_typed_transaction tx).tx_to =
      some (formatAddress (beBytesToNat ((d.drop 16).take 20))) ∧
    (StoredTransaction.from_typed_transaction tx).token_value =
      some (Nat.repr (beBytesToNat ((d.drop 36).take 32))) := by
  unfold StoredTransaction.from_typed_transaction
  rw [htx]
  dsimp only
  rw [if_pos hcond]
  exact ⟨rfl, rfl⟩

/-- C6 (counterexample): the claim says reading back a transaction for history
or info display recognizes call data as a token transfer exactly when it is at
least 68 bytes and begins with the transfer selector; but the info command
displays a token value read from bytes 36 to 68 of any call data of at least
68 bytes, here 68 zero bytes that do not begin with the selector. -/
theorem c6_counterexample :
    TransactionService.info_token_value (List.replicate 68 0) = some 0 ∧
    transferSelector.isPrefixOf (List.replicate 68 0) = false := by
  constructor <;> decide

/-- C6 (amended): history decoding (from_typed_transaction) recognizes a token
transfer exactly when the call data is at least 68 bytes and begins with the
transfer selector, and then decodes the recipient from bytes 16 to 36 and the
amount from bytes 36 to 68, inverting the standard transfer(address,uint256)
encoding; the info display decodes the recipient under the same condition,
but it prints a token amount from bytes 36 to 68 whenever the call data is at
least 68 bytes long, even when the selector does not match. -/
theorem c6_token_decoding_amended :
    (∀ tx : TypedTx,
      (StoredTransaction.from_typed_transaction tx).token_value.isSome = true ↔
      ∃ d, tx.data = some d ∧ 68 ≤ d.length ∧ transferSelector.isPrefixOf d = true) ∧
    (∀ (tx : TypedTx) (d : List Nat), tx.data = some d → 68 ≤ d.length →
      transferSelector.isPrefixOf d = true →
      (StoredTransaction.from_typed_transaction tx).tx_to =
        some (formatAddress (beBytesToNat ((d.drop 16).take 20))) ∧
      (StoredTransaction.from_typed_transaction tx).token_value =
        some (Nat.repr (beBytesToNat ((d.drop 36).take 32)))) ∧
    (∀ (tx : TypedTx) (r a : Nat), r < 2 ^ 160 → a < 2 ^ 256 →
      tx.data = some (abiEncodeTransfer r a) →
      (StoredTransaction.from_typed_transaction tx).tx_to = some (formatAddress r) ∧
      (StoredTransaction.from_typed_transaction tx).token_value = some (Nat.repr a)) ∧
    (∀ input : List Nat,
      (TransactionService.info_token_value input).isSome = true ↔ 68 ≤ input.length) ∧
    (∀ (input : List Nat) (outer : Option Nat), 68 ≤ input.length →
      transferSelector.isPrefixOf input = true →
      TransactionService.info_displayed_to input outer =
        beBytesToNat ((input.drop 16).take 20)) := by
  refine ⟨?_, ?_, ?_, ?_, ?_⟩
  · intro tx
    constructor
    · intro hsome
      cases htx : tx.data with
      | none =>
        rw [StoredTransaction.from_typed_transaction, htx] at hsome
        simp at hsome
      | some d =>
        by_cases hcond : 68 ≤ d.length ∧ transferSelector.isPrefixOf d = true
        · exact ⟨d, htx ▸ rfl, hcond⟩
        · rw [StoredTransaction.from_typed_transaction, htx] at hsome
          dsimp only at hsome
          rw [if_neg hcond] at hsome
          simp at hsome
    · intro hex
      obtain ⟨d, htx, hcond⟩ := hex
      rw [(from_typed_transaction_token_case tx d htx hcond).2]
      rfl
  · intro tx d htx hlen hpre
    exact from_typed_transaction_token_case tx d htx ⟨hlen, hpre⟩
  · intro tx r a hr ha htx
    have h1 := from_typed_transaction_token_case tx (abiEncodeTransfer r a) htx
      ⟨by rw [abiEncodeTransfer_length], transferSelector_isPrefixOf_abiEncodeTransfer r a⟩
    rw [abiEncodeTransfer_drop16, abiEncodeTransfer_drop36,
      beBytesToNat_natToBeBytes, beBytesToNat_natToBeBytes] at h1
    have h160 : (256 : Nat) ^ 20 = 2 ^ 160 := by decide
    have h256 : (256 : Nat) ^ 32 = 2 ^ 256 := by decide
    rw [Nat.mod_eq_of_lt (by rw [h160]; exact hr),
      Nat.mod_eq_of_lt (by rw [h256]; exact ha)] at h1
    exact h1
  · intro input
    by_cases h : 68 ≤ input.length
    · simp [TransactionService.info_token_value, h]
    · simp [TransactionService.info_token_value, h]
  · intro input outer hlen hpre
    rw [TransactionService.info_displayed_to, if_pos ⟨hlen, hpre⟩]

/-- Witness for C6 at the concrete transaction whose call data encodes
transfer(1, 2): the stored record decodes recipient 1 and amount 2. -/
theorem c6_witness :
    (StoredTransaction.from_typed_transaction txTok).tx_to = some (formatAddress 1) ∧
    (StoredTransaction.from_typed_transaction txTok).token_value = some (Nat.repr 2) :=
  c6_token_decoding_amended.2.2.1 txTok 1 2 (by decide) (by decide) rfl

/-- C5: for every send operation, native or token transfer, the history is
appended with exactly one record when the whole pipeline including the raw
broadcast succeeds, and any failure, including every provider call and the
broadcast itself, aborts the send with an error and leaves the history
exactly as it was. -/
theorem c5_history_only_after_broadcast :
    (∀ (svc : TransactionService) (rlp : TypedTx → List Nat → List Nat)
      (to_str value : String) (gas_price gas_limit : Option String)
      (history h : List StoredTransaction) (res : Except String String),
      TransactionService.send svc rlp to_str value gas_price gas_limit history = (h, res) →
      (exceptToBool res = false → h = history) ∧
      (exceptToBool res = true → ∃ record, h = history ++ [record])) ∧
    (∀ (svc : TransactionService) (rlp : TypedTx → List Nat → List Nat)
      (to_str value token_address : String) (gas_price gas_limit : Option String)
      (history h : List StoredTransaction) (res : Except String String),
      TransactionService.send_token svc rlp to_str value token_address gas_price
        gas_limit history = (h, res) →
      (exceptToBool res = false → h = history) ∧
      (exceptToBool res = true → ∃ record, h = history ++ [record])) := by
  constructor
  · intro svc rlp to_str value gas_price gas_limit history h res heq
    rw [TransactionService.send] at heq
    dsimp only at heq
    repeat' split at heq
    all_goals
      cases heq
      constructor <;> intro hb <;>
        first
          | rfl
          | exact ⟨_, rfl⟩
          | simp [exceptToBool] at hb
  · intro svc rlp to_str value token_address gas_price gas_limit history h res heq
    rw [TransactionService.send_token] at heq
    dsimp only at heq
    repeat' split at heq
    all_goals
      cases heq
      constructor <;> intro hb <;>
        first
          | rfl
          | exact ⟨_, rfl⟩
          | simp [exceptToBool] at hb

/-- Witness for C5: under the answering provider the native send appends one
record; under the failing provider it errors with the history unchanged; and
the token send errors with the history unchanged. -/
theorem c5_witness :
    (∃ record, (TransactionService.send svc0 rlp0 addrA ("1") none none []).1 =
      [] ++ [record]) ∧
    (TransactionService.send svcF rlp0 addrA ("1") none none []).1 = [] ∧
    (TransactionService.send_token svc0 rlp0 addrA ("1") addrB none none []).1 = [] := by
  refine ⟨?_, ?_, ?_⟩
  · exact (c5_history_only_after_broadcast.1 svc0 rlp0 addrA ("1") none none [] _ _
      rfl).2 (by rfl)
  · exact (c5_history_only_after_broadcast.1 svcF rlp0 addrA ("1") none none [] _ _
      rfl).1 (by rfl)
  · exact (c5_history_only_after_broadcast.2 svc0 rlp0 addrA ("1") addrB none none [] _ _
      rfl).1 (by rfl)
